import Mathlib

/-!
# Formalisation of the `formu` dynamic form-builder (`src/app/page.tsx`)

The page holds two forms:

* an *input creator* (the spec's Collector) validated by `inputCreatorSchema`
  (zod: `label: z.string().min(1)`, `defaultValue: z.string().optional()`,
  `type: union of four literals, .default("text")`), whose submit handler
  `onCreateInput` appends `{label, value: defaultValue ?? "", type}` to the
  field array and resets the creator form to `{label: "", defaultValue: ""}`;
* a *created form* (the spec's Dynamic Form List) validated by
  `createdFormSchema` (zod: each input has `label: z.string().min(1)`,
  `value: z.string()`, `type: z.enum(INPUT_TYPES)`), with `useFieldArray`
  operations `append`, `remove`, `swap`, a per-row move button calling
  `swap(index, index === 0 ? inputs.length - 1 : index - 1)` rendered only
  when `inputs.length > 1`, a Submit button rendered only when
  `inputs.length > 0`, and a submit handler `onCreatedFormSubmit` that
  formats the snapshot with `formatCreatedFormData`.

Machine state is modelled as explicit values: the field array is a
`List FieldDescriptor`, the creator form's raw values are an
`InputCreatorRaw`.
-/

/-- The `INPUT_TYPES` constant of the page:
`["text", "number", "email", "password"] as const`. -/
def INPUT_TYPES : List String := ["text", "number", "email", "password"]

/-- The four input kinds of `INPUT_TYPES` as an enumeration
(the spec's `FieldTypeKind`). -/
inductive FieldTypeKind where
  | text
  | number
  | email
  | password
deriving DecidableEq, Repr

/-- One entry of the created form's `inputs` field array:
`{label: string, value: string, type: enum}` (the spec's `FieldDescriptor`). -/
structure FieldDescriptor where
  label : String
  value : String
  type : FieldTypeKind
deriving DecidableEq, Repr

instance : Inhabited FieldDescriptor := ⟨⟨"", "", FieldTypeKind.text⟩⟩

/-- The raw values of the input-creator form before zod validation:
`label` is the text input's string, `defaultValue` and `type` may be
absent (`undefined`). -/
structure InputCreatorRaw where
  label : String
  defaultValue : Option String
  type : Option String
deriving DecidableEq, Repr

/-- The parsed output of `inputCreatorSchema`
(`z.infer<typeof inputCreatorSchema>`). -/
structure InputCreatorFormFields where
  label : String
  defaultValue : Option String
  type : FieldTypeKind
deriving DecidableEq, Repr

/-- The union `z.union([z.literal("text"), z.literal("number"),
z.literal("email"), z.literal("password")])`: which strings parse to
which kind. -/
def parseInputType (s : String) : Option FieldTypeKind :=
  if s = "text" then some FieldTypeKind.text
  else if s = "number" then some FieldTypeKind.number
  else if s = "email" then some FieldTypeKind.email
  else if s = "password" then some FieldTypeKind.password
  else none

/-- The validation issues `inputCreatorSchema` raises on the raw creator
values, by field path: `label` fails `.min(1)` when empty; a present
`type` fails when it is not one of the four literals; an absent `type`
is filled by `.default("text")`; `defaultValue` is unconstrained. -/
def inputCreatorIssues (raw : InputCreatorRaw) : List String :=
  (if 1 ≤ raw.label.length then [] else ["label"]) ++
  (match raw.type with
   | none => []
   | some s => if (parseInputType s).isSome then [] else ["type"])

/-- `inputCreatorSchema.parse`: succeeds exactly when there are no issues,
producing the parsed fields with `type` defaulted to `"text"` when absent. -/
def inputCreatorParse (raw : InputCreatorRaw) :
    Except (List String) InputCreatorFormFields :=
  if inputCreatorIssues raw = [] then
    Except.ok ⟨raw.label, raw.defaultValue, (raw.type.bind parseInputType).getD FieldTypeKind.text⟩
  else
    Except.error (inputCreatorIssues raw)

/-- `onCreateInput`: on validated data, `append({label: data.label,
value: data.defaultValue ?? "", type: data.type})` on the field array and
`inputCreatorForm.reset({label: "", defaultValue: ""})` — the reset
replaces the creator form's values, leaving `type` unset. Returns the new
field array and the creator form's values after the reset. -/
def onCreateInput (data : InputCreatorFormFields) (fieldList : List FieldDescriptor) :
    List FieldDescriptor × InputCreatorRaw :=
  (fieldList ++ [⟨data.label, data.defaultValue.getD "", data.type⟩],
   ⟨"", some "", none⟩)

/-- Outcome of submitting the creator form: the field array, the creator
form values, and the validation issue paths surfaced inline. -/
structure CollectorResult where
  fieldList : List FieldDescriptor
  creator : InputCreatorRaw
  issues : List String
deriving DecidableEq, Repr

/-- `inputCreatorForm.handleSubmit(onCreateInput)`: the zod resolver runs
`inputCreatorSchema` on the raw values; on success `onCreateInput` runs;
on failure nothing runs and the issues are attached to their fields. -/
def collectorSubmit (raw : InputCreatorRaw) (fieldList : List FieldDescriptor) :
    CollectorResult :=
  match inputCreatorParse raw with
  | Except.ok data =>
      let r := onCreateInput data fieldList
      ⟨r.1, r.2, []⟩
  | Except.error issues => ⟨fieldList, raw, issues⟩

/-- The spec's `ResultRecord`: the ordered `{label, value}` snapshot taken
from the created form's data at submit time. -/
structure ResultRecord where
  inputs : List (String × String)
deriving DecidableEq, Repr

/-- The validation issues `createdFormSchema` raises, as
(array index, field path) pairs. Per the schema, each element's `label`
must satisfy `.min(1)`; `value` is a bare `z.string()` with no constraint,
and `type` is always one of the enum members, so neither can fail. -/
def createdFormFieldIssues (inputs : List FieldDescriptor) : List (Nat × String) :=
  inputs.enum.filterMap fun p =>
    if 1 ≤ p.2.label.length then none else some (p.1, "label")

/-- `formatCreatedFormData`: renders the submitted data as
`label: value` pairs joined by `", "`, in list order. -/
def formatCreatedFormData (data : List FieldDescriptor) : String :=
  String.intercalate ", " (data.map fun i => i.label ++ ": " ++ i.value)

/-- `onCreatedFormSubmit` receives the validated data and hands the
snapshot to the toast; the `ResultRecord` it realises is the ordered
`{label, value}` projection of the data. -/
def onCreatedFormSubmit (data : List FieldDescriptor) : ResultRecord :=
  ⟨data.map fun d => (d.label, d.value)⟩

/-- `createdForm.handleSubmit(onCreatedFormSubmit)`: the zod resolver runs
`createdFormSchema` on the current field array; on success the handler
produces the `ResultRecord`, otherwise no record is produced and the
issues are shown inline. -/
def createdFormHandleSubmit (inputs : List FieldDescriptor) : Option ResultRecord :=
  if createdFormFieldIssues inputs = [] then some (onCreatedFormSubmit inputs) else none

/-- Modelled from the spec: `remove(index)` of `useFieldArray`
(react-hook-form, not part of this repository's sources) "deletes the
descriptor at position index (0-based). Fails silently if index out of
range"; subsequent indices shift down by one. -/
def removeField (l : List FieldDescriptor) (i : Nat) : List FieldDescriptor :=
  l.eraseIdx i

/-- Modelled from the spec: `swap(indexA, indexB)` of `useFieldArray`
(react-hook-form, not part of this repository's sources) "exchanges the
two descriptors' positions"; out-of-range index operations are
"defensive no-ops rather than surfaced errors". -/
def swapFields (l : List FieldDescriptor) (a b : Nat) : List FieldDescriptor :=
  if a < l.length ∧ b < l.length then
    (l.set a (l.getD b default)).set b (l.getD a default)
  else l

/-- The move button's `onClick`:
`swap(index, index === 0 ? inputs.length - 1 : index - 1)`. -/
def moveClick (l : List FieldDescriptor) (index : Nat) : List FieldDescriptor :=
  swapFields l index (if index = 0 then l.length - 1 else index - 1)

/-- The guard on rendering the move button: `inputs.length > 1`. -/
def moveOffered (l : List FieldDescriptor) : Bool := l.length > 1

/-- The guard on rendering the created form's Submit button:
`inputs.length > 0`. -/
def submitOffered (l : List FieldDescriptor) : Bool := l.length > 0

/-- The controlled `Input` for `inputs.${index}.value`: an edit overwrites
the `value` field of the descriptor at that index only (the spec's
`updateValue`). -/
def updateValue : List FieldDescriptor → Nat → String → List FieldDescriptor
  | [], _, _ => []
  | d :: rest, 0, v => ⟨d.label, v, d.type⟩ :: rest
  | d :: rest, i + 1, v => d :: updateValue rest i v

/-! ## Helper lemmas -/

theorem one_le_length_of_ne_empty (s : String) (h : s ≠ "") : 1 ≤ s.length := by
  rcases s with ⟨cs⟩
  cases cs with
  | nil => simp at h
  | cons c cs => simp [String.length]

theorem createdFormFieldIssues_nil (l : List FieldDescriptor)
    (h : ∀ d ∈ l, d.label ≠ "") : createdFormFieldIssues l = [] := by
  unfold createdFormFieldIssues
  refine List.filterMap_eq_nil_iff.mpr fun p hp => ?_
  have hmem : p.2 ∈ l := by
    have := List.mem_map_of_mem Prod.snd hp
    rwa [List.enum_map_snd] at this
  rw [if_pos (one_le_length_of_ne_empty _ (h _ hmem))]

theorem createdFormHandleSubmit_success (l : List FieldDescriptor)
    (h : ∀ d ∈ l, d.label ≠ "") :
    createdFormHandleSubmit l = some ⟨l.map fun d => (d.label, d.value)⟩ := by
  unfold createdFormHandleSubmit
  rw [if_pos (createdFormFieldIssues_nil l h)]
  rfl

theorem swapFields_length (l : List FieldDescriptor) (a b : Nat) :
    (swapFields l a b).length = l.length := by
  unfold swapFields
  split <;> simp

theorem swapFields_getD_left (l : List FieldDescriptor) (a b : Nat)
    (ha : a < l.length) (hb : b < l.length) :
    (swapFields l a b).getD a default = l.getD b default := by
  unfold swapFields
  rw [if_pos ⟨ha, hb⟩]
  by_cases hab : a = b
  · subst hab
    rw [List.getD_eq_getElem?_getD, List.getElem?_set_eq (by simpa using ha)]
    rfl
  · rw [List.getD_eq_getElem?_getD, List.getElem?_set_ne (Ne.symm hab),
      List.getElem?_set_eq ha]
    rfl

theorem swapFields_getD_right (l : List FieldDescriptor) (a b : Nat)
    (ha : a < l.length) (hb : b < l.length) :
    (swapFields l a b).getD b default = l.getD a default := by
  unfold swapFields
  rw [if_pos ⟨ha, hb⟩]
  rw [List.getD_eq_getElem?_getD, List.getElem?_set_eq (by simpa using hb)]
  rfl

theorem swapFields_getD_other (l : List FieldDescriptor) (a b j : Nat)
    (hja : j ≠ a) (hjb : j ≠ b) :
    (swapFields l a b).getD j default = l.getD j default := by
  unfold swapFields
  split
  · rw [List.getD_eq_getElem?_getD, List.getElem?_set_ne (Ne.symm hjb),
      List.getElem?_set_ne (Ne.symm hja), ← List.getD_eq_getElem?_getD]
  · rfl

/-! ## Claim theorems -/

/-- C3: for every non-empty label `L`, default value `D`, and type string
`T` naming kind `t`, accepting the creator form appends exactly the
descriptor `{label: L, value: D, type: t}` at the end of the field list
(all earlier descriptors unchanged and in place) and resets the creator
form's own inputs to blank. -/
theorem collector_accept_appends (L D T : String) (t : FieldTypeKind)
    (l : List FieldDescriptor) (hL : L ≠ "") (hT : parseInputType T = some t) :
    collectorSubmit ⟨L, some D, some T⟩ l =
      ⟨l ++ [⟨L, D, t⟩], ⟨"", some "", none⟩, []⟩ := by
  have h1 : 1 ≤ L.length := one_le_length_of_ne_empty L hL
  have hiss : inputCreatorIssues ⟨L, some D, some T⟩ = [] := by
    unfold inputCreatorIssues
    simp [h1, hT]
  unfold collectorSubmit inputCreatorParse
  rw [hiss]
  simp [onCreateInput, hT]

theorem collector_accept_appends_witness :
    collectorSubmit ⟨"Name", some "x", some "email"⟩ [] =
      ⟨[⟨"Name", "x", FieldTypeKind.email⟩], ⟨"", some "", none⟩, []⟩ :=
  collector_accept_appends "Name" "x" "email" FieldTypeKind.email []
    (by decide) (by decide)

/-- C4: submitting the creator form with an empty label leaves the field
list completely unchanged (no append occurs) and surfaces a validation
issue on the `label` field. -/
theorem collector_empty_label_rejected (raw : InputCreatorRaw)
    (l : List FieldDescriptor) (h : raw.label = "") :
    (collectorSubmit raw l).fieldList = l ∧
    "label" ∈ (collectorSubmit raw l).issues := by
  have hni : ¬ 1 ≤ raw.label.length := by
    rw [h]
    decide
  obtain ⟨rest, hiss⟩ : ∃ rest, inputCreatorIssues raw = "label" :: rest := by
    unfold inputCreatorIssues
    rw [if_neg hni]
    exact ⟨_, rfl⟩
  unfold collectorSubmit inputCreatorParse
  rw [hiss]
  simp

theorem collector_empty_label_rejected_witness :
    (collectorSubmit ⟨"", some "x", none⟩ []).fieldList = [] ∧
    "label" ∈ (collectorSubmit ⟨"", some "x", none⟩ []).issues :=
  collector_empty_label_rejected ⟨"", some "x", none⟩ [] (by decide)

/-- C8: with a non-empty label, an absent `defaultValue` yields a new
descriptor whose value is `""`, an absent `type` defaults to `text`
(also with a `defaultValue` present); a present type string outside the
four enumerated kinds is rejected with an issue on the `type` field and
no append; and every accepted type string is one of `INPUT_TYPES`. -/
theorem collector_defaults (L : String) (hL : L ≠ "") (D : String)
    (l : List FieldDescriptor) :
    ((collectorSubmit ⟨L, none, none⟩ l).fieldList =
      l ++ [⟨L, "", FieldTypeKind.text⟩]) ∧
    ((collectorSubmit ⟨L, some D, none⟩ l).fieldList =
      l ++ [⟨L, D, FieldTypeKind.text⟩]) ∧
    (∀ s, parseInputType s = none →
      (collectorSubmit ⟨L, none, some s⟩ l).fieldList = l ∧
      "type" ∈ (collectorSubmit ⟨L, none, some s⟩ l).issues) ∧
    (∀ s t, parseInputType s = some t → s ∈ INPUT_TYPES) := by
  have h1 : 1 ≤ L.length := one_le_length_of_ne_empty L hL
  refine ⟨?_, ?_, ?_, ?_⟩
  · unfold collectorSubmit inputCreatorParse inputCreatorIssues
    simp [h1, onCreateInput]
  · unfold collectorSubmit inputCreatorParse inputCreatorIssues
    simp [h1, onCreateInput]
  · intro s hs
    have hiss : inputCreatorIssues ⟨L, none, some s⟩ = ["type"] := by
      unfold inputCreatorIssues
      simp [h1, hs]
    unfold collectorSubmit inputCreatorParse
    rw [hiss]
    simp
  · intro s t hst
    unfold parseInputType at hst
    unfold INPUT_TYPES
    split_ifs at hst with e1 e2 e3 e4 <;> simp_all

theorem collector_defaults_witness :
    ((collectorSubmit ⟨"Q", none, none⟩ []).fieldList =
      [] ++ [⟨"Q", "", FieldTypeKind.text⟩]) ∧
    ((collectorSubmit ⟨"Q", some "d", none⟩ []).fieldList =
      [] ++ [⟨"Q", "d", FieldTypeKind.text⟩]) ∧
    (∀ s, parseInputType s = none →
      (collectorSubmit ⟨"Q", none, some s⟩ []).fieldList = [] ∧
      "type" ∈ (collectorSubmit ⟨"Q", none, some s⟩ []).issues) ∧
    (∀ s t, parseInputType s = some t → s ∈ INPUT_TYPES) :=
  collector_defaults "Q" (by decide) "d" []

/-- C1 counterexample: on a field list whose single descriptor has an
empty value, submitting the created form is NOT aborted: it produces a
`ResultRecord` containing the empty value, and no validation issue is
attached to the empty field — `createdFormSchema` constrains labels with
`.min(1)` but leaves `value` a bare `z.string()`. -/
theorem submit_empty_value_accepted :
    createdFormHandleSubmit [⟨"Name", "", FieldTypeKind.text⟩] =
      some ⟨[("Name", "")]⟩ ∧
    createdFormFieldIssues [⟨"Name", "", FieldTypeKind.text⟩] = [] := by
  constructor <;> rfl

/-- C1 (amended): submission validates labels, not values. On every field
list whose labels are all non-empty, submit succeeds — even when some
values are empty — producing the `ResultRecord` snapshot and raising no
validation issue; submission is aborted only by an empty label. -/
theorem submit_validates_labels_only (l : List FieldDescriptor)
    (h : ∀ d ∈ l, d.label ≠ "") :
    createdFormFieldIssues l = [] ∧
    createdFormHandleSubmit l = some ⟨l.map fun d => (d.label, d.value)⟩ :=
  ⟨createdFormFieldIssues_nil l h, createdFormHandleSubmit_success l h⟩

theorem submit_validates_labels_only_witness :
    createdFormFieldIssues [⟨"A", "", FieldTypeKind.text⟩] = [] ∧
    createdFormHandleSubmit [⟨"A", "", FieldTypeKind.text⟩] =
      some ⟨([⟨"A", "", FieldTypeKind.text⟩] : List FieldDescriptor).map
        fun d => (d.label, d.value)⟩ :=
  submit_validates_labels_only [⟨"A", "", FieldTypeKind.text⟩] (by decide)

/-- C6: on every field list whose labels (hence, a fortiori, one whose
values too) are all non-empty, submit produces the `ResultRecord` whose
`inputs` equal the field list in order with identical `{label, value}`
pairs; and in the concrete scenario — accept `{Name, "", text}`, accept
`{Age, "0", number}`, set Name's value to `"Ada"`, submit — the record is
`[{Name, Ada}, {Age, 0}]`. -/
theorem submit_snapshot (l : List FieldDescriptor)
    (hlab : ∀ d ∈ l, d.label ≠ "") (_hval : ∀ d ∈ l, d.value ≠ "") :
    (createdFormHandleSubmit l = some ⟨l.map fun d => (d.label, d.value)⟩) ∧
    (createdFormHandleSubmit
        (updateValue
          ((collectorSubmit ⟨"Age", some "0", some "number"⟩
              ((collectorSubmit ⟨"Name", some "", some "text"⟩ []).fieldList)).fieldList)
          0 "Ada") =
      some ⟨[("Name", "Ada"), ("Age", "0")]⟩) :=
  ⟨createdFormHandleSubmit_success l hlab, by rfl⟩

theorem submit_snapshot_witness :
    (createdFormHandleSubmit [⟨"B", "y", FieldTypeKind.email⟩] =
      some ⟨([⟨"B", "y", FieldTypeKind.email⟩] : List FieldDescriptor).map
        fun d => (d.label, d.value)⟩) ∧
    (createdFormHandleSubmit
        (updateValue
          ((collectorSubmit ⟨"Age", some "0", some "number"⟩
              ((collectorSubmit ⟨"Name", some "", some "text"⟩ []).fieldList)).fieldList)
          0 "Ada") =
      some ⟨[("Name", "Ada"), ("Age", "0")]⟩) :=
  submit_snapshot [⟨"B", "y", FieldTypeKind.email⟩] (by decide) (by decide)

/-- C2: on a field list of length at least 2, the move button at index 0
exchanges the descriptors at positions 0 and `length - 1`, and at any
in-range index `k > 0` it exchanges positions `k` and `k - 1`; in both
cases the length is preserved and every other position is unchanged. -/
theorem moveClick_swaps (l : List FieldDescriptor) (k : Nat)
    (h2 : 2 ≤ l.length) (hk : k < l.length) :
    ((moveClick l k).length = l.length) ∧
    (k = 0 →
      (moveClick l k).getD 0 default = l.getD (l.length - 1) default ∧
      (moveClick l k).getD (l.length - 1) default = l.getD 0 default ∧
      ∀ j, j ≠ 0 → j ≠ l.length - 1 →
        (moveClick l k).getD j default = l.getD j default) ∧
    (0 < k →
      (moveClick l k).getD k default = l.getD (k - 1) default ∧
      (moveClick l k).getD (k - 1) default = l.getD k default ∧
      ∀ j, j ≠ k → j ≠ k - 1 →
        (moveClick l k).getD j default = l.getD j default) := by
  refine ⟨by rw [moveClick, swapFields_length], ?_, ?_⟩
  · intro h0
    subst h0
    have htgt : (if (0 : Nat) = 0 then l.length - 1 else 0 - 1) = l.length - 1 := by
      rw [if_pos rfl]
    rw [moveClick, htgt]
    exact ⟨swapFields_getD_left l 0 (l.length - 1) (by omega) (by omega),
      swapFields_getD_right l 0 (l.length - 1) (by omega) (by omega),
      fun j hj0 hjl => swapFields_getD_other l 0 (l.length - 1) j hj0 hjl⟩
  · intro hpos
    have htgt : (if k = 0 then l.length - 1 else k - 1) = k - 1 := by
      rw [if_neg (by omega)]
    rw [moveClick, htgt]
    exact ⟨swapFields_getD_left l k (k - 1) hk (by omega),
      swapFields_getD_right l k (k - 1) hk (by omega),
      fun j hjk hjk1 => swapFields_getD_other l k (k - 1) j hjk hjk1⟩

theorem moveClick_swaps_witness :
    (moveClick [⟨"a", "", FieldTypeKind.text⟩, ⟨"b", "", FieldTypeKind.text⟩,
        ⟨"c", "", FieldTypeKind.text⟩] 1).getD 1 default =
      ([⟨"a", "", FieldTypeKind.text⟩, ⟨"b", "", FieldTypeKind.text⟩,
        ⟨"c", "", FieldTypeKind.text⟩] : List FieldDescriptor).getD 0 default ∧
    (moveClick [⟨"a", "", FieldTypeKind.text⟩, ⟨"b", "", FieldTypeKind.text⟩,
        ⟨"c", "", FieldTypeKind.text⟩] 1).getD 2 default =
      ([⟨"a", "", FieldTypeKind.text⟩, ⟨"b", "", FieldTypeKind.text⟩,
        ⟨"c", "", FieldTypeKind.text⟩] : List FieldDescriptor).getD 2 default :=
  ⟨((moveClick_swaps [⟨"a", "", FieldTypeKind.text⟩, ⟨"b", "", FieldTypeKind.text⟩,
      ⟨"c", "", FieldTypeKind.text⟩] 1 (by decide) (by decide)).2.2 (by decide)).1,
    ((moveClick_swaps [⟨"a", "", FieldTypeKind.text⟩, ⟨"b", "", FieldTypeKind.text⟩,
      ⟨"c", "", FieldTypeKind.text⟩] 1 (by decide) (by decide)).2.2 (by decide)).2.2
      2 (by decide) (by decide)⟩

/-- C5: removing an in-range index `i` from a field list of length `N`
yields a list of length `N - 1` equal to the original with the element at
`i` deleted: the prefix before `i` is unchanged and the elements after `i`
follow in order, shifted down by one. -/
theorem removeField_deletes (l : List FieldDescriptor) (i : Nat)
    (h : i < l.length) :
    (removeField l i).length = l.length - 1 ∧
    removeField l i = l.take i ++ l.drop (i + 1) := by
  refine ⟨?_, List.eraseIdx_eq_take_drop_succ l i⟩
  rw [removeField, List.length_eraseIdx, if_pos h]

theorem removeField_deletes_witness :
    (removeField [⟨"a", "", FieldTypeKind.text⟩, ⟨"b", "", FieldTypeKind.text⟩] 0).length =
      ([⟨"a", "", FieldTypeKind.text⟩, ⟨"b", "", FieldTypeKind.text⟩] :
        List FieldDescriptor).length - 1 ∧
    removeField [⟨"a", "", FieldTypeKind.text⟩, ⟨"b", "", FieldTypeKind.text⟩] 0 =
      ([⟨"a", "", FieldTypeKind.text⟩, ⟨"b", "", FieldTypeKind.text⟩] :
        List FieldDescriptor).take 0 ++
      ([⟨"a", "", FieldTypeKind.text⟩, ⟨"b", "", FieldTypeKind.text⟩] :
        List FieldDescriptor).drop 1 :=
  removeField_deletes [⟨"a", "", FieldTypeKind.text⟩, ⟨"b", "", FieldTypeKind.text⟩] 0
    (by decide)

/-- C7: the move button is not rendered for a single-element field list,
and it is rendered exactly when the list has length at least 2. -/
theorem moveOffered_iff (l : List FieldDescriptor) :
    (l.length = 1 → moveOffered l = false) ∧
    (moveOffered l = true ↔ 2 ≤ l.length) := by
  unfold moveOffered
  constructor
  · intro h
    simp [h]
  · simp
    omega

theorem moveOffered_iff_witness :
    (([⟨"a", "", FieldTypeKind.text⟩] : List FieldDescriptor).length = 1 →
      moveOffered [⟨"a", "", FieldTypeKind.text⟩] = false) ∧
    (moveOffered [⟨"a", "", FieldTypeKind.text⟩] = true ↔
      2 ≤ ([⟨"a", "", FieldTypeKind.text⟩] : List FieldDescriptor).length) :=
  moveOffered_iff [⟨"a", "", FieldTypeKind.text⟩]

/-- C9: with an out-of-range index, `remove` is a no-op, and `swap` with
any out-of-range operand is a no-op: the field list is returned unchanged
and no issue is surfaced. -/
theorem out_of_range_noop (l : List FieldDescriptor) (i a b : Nat)
    (hi : l.length ≤ i) (hab : l.length ≤ a ∨ l.length ≤ b) :
    removeField l i = l ∧ swapFields l a b = l := by
  constructor
  · exact List.eraseIdx_eq_self.mpr hi
  · rw [swapFields, if_neg]
    rintro ⟨h1, h2⟩
    omega

theorem out_of_range_noop_witness :
    removeField [⟨"a", "", FieldTypeKind.text⟩] 5 = [⟨"a", "", FieldTypeKind.text⟩] ∧
    swapFields [⟨"a", "", FieldTypeKind.text⟩] 0 7 = [⟨"a", "", FieldTypeKind.text⟩] :=
  out_of_range_noop [⟨"a", "", FieldTypeKind.text⟩] 5 0 7 (by decide) (Or.inr (by decide))

/-- C10: the created form's Submit button is not rendered for the empty
field list — so submission is never invoked there and no `ResultRecord`
arises — and it is rendered exactly when the list is non-empty. -/
theorem submitOffered_iff (l : List FieldDescriptor) :
    submitOffered ([] : List FieldDescriptor) = false ∧
    (submitOffered l = true ↔ l ≠ []) := by
  constructor
  · rfl
  · unfold submitOffered
    simp [List.length_pos]

theorem submitOffered_iff_witness :
    submitOffered ([] : List FieldDescriptor) = false ∧
    (submitOffered [⟨"a", "", FieldTypeKind.text⟩] = true ↔
      ([⟨"a", "", FieldTypeKind.text⟩] : List FieldDescriptor) ≠ []) :=
  submitOffered_iff [⟨"a", "", FieldTypeKind.text⟩]
